import Mathlib

/-!
Shallow embedding of the string-table patcher (strings-patcher): the
string scanner / substitution engine of common.c, and the ELF / PE
header navigators (elffile source and pefile.c), together with proofs
about them.

Buffers are `List Nat`, one entry per byte; a zero entry is the NUL
byte.  C strings (search / replace patterns, section names) are
`List Nat` without their terminating NUL; reading one byte past the
end of such a list (`List.getD _ 0`) yields 0, exactly the terminator
byte the C code would see, so `List.length` coincides with `strlen`
for the zero-free pattern lists the program is used with.

All loops are embedded as structural recursion on an explicit fuel
argument; every top-level entry point passes fuel equal to the loop
bound of the C `for`/`while` (the loops advance their index by one per
iteration, so this fuel is exact and the embedding computes by
`decide`/`rfl`.
-/

set_option maxRecDepth 100000

namespace StringsPatcher

/-- memcpy into a byte buffer: overwrite `bytes.length` bytes of `data`
starting at `pos`.  No truncation is applied, so the result has the
same length as `data` exactly when the write stays inside the buffer;
an out-of-bounds write (which would be undefined behaviour in the C)
would change the length. -/
def writeBytes (data : List Nat) (pos : Nat) (bytes : List Nat) : List Nat :=
  data.take pos ++ bytes ++ data.drop (pos + bytes.length)

/-- Printable length of a buffer: number of leading non-zero bytes. -/
def printable_len (l : List Nat) : Nat :=
  (l.takeWhile (fun b => b ≠ 0)).length

/-! ## common.c, lines 42-60: available_length -/

/-- Loop of `available_length` (common.c lines 47-56): walk the bytes,
remembering the previous byte in `lc` (initially 1); stop at the first
non-zero byte that follows a zero byte and return the index just
before it. -/
def availLoop (str : List Nat) (len : Nat) : Nat → Nat → Nat → Nat
  | 0, _, _ => len - 1
  | f + 1, i, lc =>
    if i < len then
      let b := str.getD i 0
      if b ≠ 0 ∧ lc = 0 then i - 1
      else availLoop str len f (i + 1) b
    else len - 1

/-- common.c lines 42-60: room available to a string run, i.e. the
distance from the start of the run to the byte just before the next
run (reserving one zero separator), or `len - 1` when the run reaches
the end of the buffer.  The C returns `len - 1` in `size_t`; the
callers only invoke it with `len ≥ 1`, where Nat subtraction agrees. -/
def available_length (str : List Nat) (len : Nat) : Nat :=
  availLoop str len len 0 1

/-! ## common.c, lines 13-40: count_occurrences -/

/-- Loop of `count_occurrences` (common.c lines 19-37).  `c` is the
number of pattern bytes matched so far; on a mismatch `c` restarts at
0 without re-examining the current byte.  Returns `(count, strLen)`,
where `strLen` is the index at which the scan stopped (the first zero
byte, or `len`). -/
def countLoop (str word : List Nat) (wordLen len : Nat) :
    Nat → Nat → Nat → Nat → Nat × Nat
  | 0, i, _, count => (count, i)
  | f + 1, i, c, count =>
    if i < len then
      let b := str.getD i 0
      if b = 0 then (count, i)
      else
        let c1 := if b = word.getD c 0 then c + 1 else 0
        if wordLen ≤ c1 then countLoop str word wordLen len f (i + 1) 0 (count + 1)
        else countLoop str word wordLen len f (i + 1) c1 count
    else (count, i)

/-- common.c lines 13-40: count the occurrences of `word` found by the
restart-from-zero scanner in `str`, also reporting the printable
length of the run (out parameter `*strLen` of the C). -/
def count_occurrences (str word : List Nat) (wordLen len : Nat) : Nat × Nat :=
  countLoop str word wordLen len len 0 0 0

/-! ## common.c, lines 62-87: string_substitute -/

/-- Loop of `string_substitute` (common.c lines 66-86).  `acc` is the
content of the output buffer written so far (the C writes only at the
running index `j`, i.e. it appends).  On a mismatch the pending
partial match plus the current byte are flushed; on a completed match
`replaceLen` bytes of `replace` are appended instead of the matched
span.  A partial match still pending when the input ends is never
flushed (the corresponding output bytes are left unwritten by the C). -/
def subLoop (input search replace : List Nat) (searchLen replaceLen inputLen : Nat) :
    Nat → Nat → Nat → List Nat → List Nat
  | 0, _, _, acc => acc
  | f + 1, i, c, acc =>
    if i < inputLen then
      let b := input.getD i 0
      let c1 := if b = search.getD c 0 then c + 1 else 0
      let acc1 := if b = search.getD c 0 then acc
        else acc ++ (input.drop (i - c)).take (c + 1)
      let c2 := if searchLen ≤ c1 then 0 else c1
      let acc2 := if searchLen ≤ c1 then acc1 ++ replace.take replaceLen else acc1
      subLoop input search replace searchLen replaceLen inputLen f (i + 1) c2 acc2
    else acc

/-- common.c lines 62-87: substitute every scanner-found occurrence of
`search` by `replace` while copying the bytes in between; returns the
bytes actually written to the output buffer. -/
def string_substitute (input search replace : List Nat)
    (searchLen replaceLen inputLen : Nat) : List Nat :=
  subLoop input search replace searchLen replaceLen inputLen inputLen 0 0 []

/-! ## common.c, lines 89-176: search_and_replace -/

/-- Result of one scanning step: the (possibly rewritten) buffer and
the updated `c`, `state`, `ret` of the C loop. -/
structure StepOut where
  data : List Nat
  c : Nat
  state : Nat
  ret : Nat
deriving DecidableEq, Repr

/-- common.c lines 138-169: the replacement of one run in substring
mode.  Count the occurrences in the run at `offset`, compute the
required length and the available room; if the rewritten run does not
fit return the buffer unchanged with code 2, otherwise write the
substituted bytes followed by zero padding and return code 0.
The C allocates a scratch buffer of `newLen` bytes of which
`string_substitute` writes only a prefix; the `memcpy` back into
`data` copies all `newLen` bytes, so the unwritten tail is
indeterminate in the C; the model takes those bytes to be 0.
`newLen` is `curLen + count * (replaceLen - searchLen)` in `size_t`
arithmetic; since the counted occurrences are disjoint spans of the
run, `count * searchLen ≤ curLen` (see `countLoop_mul_le`) and the Nat
expression below has the same value. -/
def sar_replace_run (data search replace : List Nat)
    (searchLen replaceLen len offset : Nat) : List Nat × Nat :=
  let spanned := count_occurrences (data.drop offset) search searchLen (len - offset)
  let count := spanned.1
  let curLen := spanned.2
  let newLen := curLen + count * replaceLen - count * searchLen
  let available := available_length (data.drop offset) (len - offset)
  if available < newLen then (data, 2)
  else
    let buffer :=
      (string_substitute (data.drop offset) search replace searchLen replaceLen curLen
        ++ List.replicate newLen 0).take newLen
    let data1 := writeBytes data offset buffer
    let data2 := writeBytes data1 (offset + newLen) (List.replicate (available - newLen) 0)
    (data2, 0)

/-- common.c lines 125-170: match the current byte against the search
pattern and, when the pattern completes (`c ≥ searchLen`), replace the
run at `offset` (setting `state := 1` and `ret` to the outcome of the
replacement, 0 or 2). -/
def sar_match (search replace : List Nat) (searchLen replaceLen len : Nat)
    (data : List Nat) (i c offset state ret : Nat) : StepOut :=
  let b := data.getD i 0
  let c1 := if b = search.getD c 0 then c + 1 else 0
  if searchLen ≤ c1 then
    let rr := sar_replace_run data search replace searchLen replaceLen len offset
    ⟨rr.1, 0, 1, rr.2⟩
  else ⟨data, c1, state, ret⟩

/-- Main loop of `search_and_replace` (common.c lines 97-171).  State
0: skipping zero bytes between runs (a non-zero byte starts a run at
`offset := i`, state 2); state 1: skipping the rest of an already
replaced run until a zero byte; state 2: scanning inside a run (a zero
byte resets `c` and the state, and still falls through to the
matcher, as in the C). -/
def sarLoop (search replace : List Nat) (searchLen replaceLen len : Nat) :
    Nat → List Nat → Nat → Nat → Nat → Nat → Nat → List Nat × Nat
  | 0, data, _, _, _, _, ret => (data, ret)
  | f + 1, data, i, c, offset, state, ret =>
    if i < len then
      let b := data.getD i 0
      if state = 0 ∧ b = 0 then sarLoop search replace searchLen replaceLen len f data (i + 1) c offset state ret
      else if state = 1 then
        if b = 0 then sarLoop search replace searchLen replaceLen len f data (i + 1) c offset 0 ret
        else sarLoop search replace searchLen replaceLen len f data (i + 1) c offset 1 ret
      else
        let offset1 := if state = 0 then i else offset
        let c1 := if state = 0 then c else if b = 0 then 0 else c
        let state1 := if state = 0 then 2 else if b = 0 then 0 else state
        let m := sar_match search replace searchLen replaceLen len data i c1 offset1 state1 ret
        sarLoop search replace searchLen replaceLen len f m.data (i + 1) m.c offset1 m.state m.ret
    else (data, ret)

/-- common.c lines 89-176: substring-mode search and replace over the
whole string table.  Returns the rewritten buffer and the result code:
1 = not found, 0 = replaced, 2 = replacement did not fit. -/
def search_and_replace (data search replace : List Nat) (len : Nat) : List Nat × Nat :=
  sarLoop search replace search.length replace.length len len data 0 0 0 0 1

/-! ## common.c, lines 178-237: search_and_replace_exact -/

/-- common.c lines 221-232: the replacement of one run in exact mode:
overwrite the run with `replace` and zero-pad up to the available
room, or leave the buffer unchanged with code 2 when `replace` does
not fit. -/
def sare_replace_run (data replace : List Nat) (replaceLen len offset : Nat) :
    List Nat × Nat :=
  let available := available_length (data.drop offset) (len - offset)
  if available < replaceLen then (data, 2)
  else
    let data1 := writeBytes data offset (replace.take replaceLen)
    let data2 := writeBytes data1 (offset + replaceLen) (List.replicate (available - replaceLen) 0)
    (data2, 0)

/-- Main loop of `search_and_replace_exact` (common.c lines 185-234).
Unlike substring mode there is no zero-byte reset in state 2: the
terminating zero of a run is matched against the pattern terminator
(`search.getD searchLen 0 = 0`), and a mismatch anywhere (including at
that zero) moves to state 1, which waits for a further zero byte. -/
def sareLoop (search replace : List Nat) (searchLen replaceLen len : Nat) :
    Nat → List Nat → Nat → Nat → Nat → Nat → Nat → List Nat × Nat
  | 0, data, _, _, _, _, ret => (data, ret)
  | f + 1, data, i, c, offset, state, ret =>
    if i < len then
      let b := data.getD i 0
      if state = 0 ∧ b = 0 then sareLoop search replace searchLen replaceLen len f data (i + 1) c offset state ret
      else if state = 1 then
        if b = 0 then sareLoop search replace searchLen replaceLen len f data (i + 1) c offset 0 ret
        else sareLoop search replace searchLen replaceLen len f data (i + 1) c offset 1 ret
      else
        let offset1 := if state = 0 then i else offset
        let state1 := if state = 0 then 2 else state
        let c1 := if b = search.getD c 0 then c + 1 else 0
        let state2 := if b = search.getD c 0 then state1 else 1
        if searchLen < c1 ∧ b = 0 then
          let rr := sare_replace_run data replace replaceLen len offset1
          sareLoop search replace searchLen replaceLen len f rr.1 (i + 1) 0 offset1 0 rr.2
        else sareLoop search replace searchLen replaceLen len f data (i + 1) c1 offset1 state2 ret
    else (data, ret)

/-- common.c lines 178-237: exact-mode search and replace: a run is
replaced only when its entire content equals `search`.  Result codes
as in `search_and_replace`. -/
def search_and_replace_exact (data search replace : List Nat) (len : Nat) : List Nat × Nat :=
  sareLoop search replace search.length replace.length len len data 0 0 0 0 1

/-! ## File stream model

A `FILE *` opened for reading is modelled as the full byte content of
the file plus a read position.  `fseek` to any non-negative position
succeeds (as it does for regular files, even past the end); `fseek` to
a negative position fails.  `fread` of `n` bytes succeeds exactly when
`n` whole bytes are available; a short read returns `none` and leaves
the position at the end of the data (the C advances by the bytes
actually consumed).  The host is taken to be little-endian, matching
the byte-order conditionals compiled on an x86 build. -/

structure Stream where
  data : List Nat
  pos : Nat
deriving DecidableEq, Repr

def fseek_set (s : Stream) (t : Int) : Option Stream :=
  if t < 0 then none else some ⟨s.data, t.toNat⟩

def fseek_cur (s : Stream) (d : Int) : Option Stream :=
  fseek_set s ((s.pos : Int) + d)

def freadN (s : Stream) (n : Nat) : Option (List Nat) × Stream :=
  if s.pos + n ≤ s.data.length then
    (some ((s.data.drop s.pos).take n), ⟨s.data, s.pos + n⟩)
  else (none, ⟨s.data, max s.pos s.data.length⟩)

/-- Value of a little-endian byte sequence. -/
def le_value (bs : List Nat) : Nat :=
  bs.foldr (fun b acc => b + 256 * acc) 0

def bswap16 (d : Nat) : Nat := d % 256 * 256 + d / 256 % 256

def bswap32 (d : Nat) : Nat :=
  d % 256 * 2 ^ 24 + d / 2 ^ 8 % 256 * 2 ^ 16 + d / 2 ^ 16 % 256 * 2 ^ 8 + d / 2 ^ 24 % 256

def bswap64 (d : Nat) : Nat :=
  d % 256 * 2 ^ 56 + d / 2 ^ 8 % 256 * 2 ^ 48 + d / 2 ^ 16 % 256 * 2 ^ 40 +
    d / 2 ^ 24 % 256 * 2 ^ 32 + d / 2 ^ 32 % 256 * 2 ^ 24 + d / 2 ^ 40 % 256 * 2 ^ 16 +
    d / 2 ^ 48 % 256 * 2 ^ 8 + d / 2 ^ 56 % 256

/-! ## ELF source, swap helpers and Word (lines 25-143)

`Word` is a union of a `uint32_t` and a `uint64_t`; on the
little-endian host the 32-bit member aliases the low four bytes of the
64-bit member, so a word is modelled as the `Nat` value of its 64-bit
view, with `word_get32` / `word_set32` accessing the low half. -/

def word_get32 (w : Nat) : Nat := w % 2 ^ 32

def word_set32 (w v : Nat) : Nat := w / 2 ^ 32 * 2 ^ 32 + v

/-- ELF source lines 25-37 (little-endian host branch): swap a 16-bit
value when the file endianness marker (`e`) denotes big-endian (2). -/
def swap_data_16 (e d : Nat) : Nat := if e = 2 then bswap16 d else d

/-- ELF source lines 39-56 (little-endian host branch). -/
def swap_data_32 (e d : Nat) : Nat := if e = 2 then bswap32 d else d

/-- ELF source lines 58-80 (little-endian host branch). -/
def swap_data_64 (e d : Nat) : Nat := if e = 2 then bswap64 d else d

/-- ELF source lines 96-104: swap the 32-bit member when the class
byte (`cls`, `class` in the C) is 1 (32-bit), else the 64-bit member. -/
def swap_data_word (e cls w : Nat) : Nat :=
  if cls = 1 then word_set32 w (swap_data_32 e (word_get32 w)) else swap_data_64 e w

/-- ELF source lines 106-112: widen a word to a seek offset, reading
the member selected by the class byte. -/
def word_to_long (cls w : Nat) : Nat :=
  if cls = 1 then word_get32 w else w

/-- ELF source lines 114-121: read one word from the stream.  The C
declares `const size_t r;` and branches on `IS_32_BITS(r)` — on the
UNINITIALIZED local `r`, not on the `class` parameter, which is
unused.  The indeterminate value is exposed here as the explicit
argument `r`; the `cls` argument is kept to mirror the C signature and
is ignored exactly as in the source.  Returns the `fread` item count
(1 on success, 0 on a short read), the updated word and the updated
stream; on a short read the C leaves the word partially written, the
model leaves it unchanged. -/
def read_word (s : Stream) (w : Nat) (cls r : Nat) : Nat × Nat × Stream :=
  if r = 1 then
    match freadN s 4 with
    | (some bs, s1) => (1, word_set32 w (le_value bs), s1)
    | (none, s1) => (0, w, s1)
  else
    match freadN s 8 with
    | (some bs, s1) => (1, le_value bs, s1)
    | (none, s1) => (0, w, s1)

/-- ELF source lines 123-132 (and pefile.c lines 17-26): seek forward
by `offset` and read a `size`-byte little-endian value. -/
def advance_and_read (s : Stream) (size : Nat) (offset : Int) :
    Option (Nat × Stream) :=
  match fseek_cur s offset with
  | none => none
  | some s1 =>
    match freadN s1 size with
    | (some bs, s2) => some (le_value bs, s2)
    | (none, _) => none

/-- ELF source lines 134-143: seek forward by `offset` and read one
word; `r` is the indeterminate local of `read_word`. -/
def advance_and_read_word (s : Stream) (w : Nat) (cls r : Nat) (offset : Int) :
    Nat × Nat × Stream :=
  match fseek_cur s offset with
  | none => (0, w, s)
  | some s1 =>
    let rw := read_word s1 w cls r
    if rw.1 = 1 then (1, rw.2.1, rw.2.2) else (0, rw.2.1, rw.2.2)

/-! ## strncmp / strcmp helpers -/

/-- C `strncmp`: compare at most `n` bytes, stopping at the first
difference or at a NUL byte present in both strings.  Bytes past the
end of a list read as 0, the NUL terminator. -/
def strncmp : List Nat → List Nat → Nat → Int
  | _, _, 0 => 0
  | a, b, n + 1 =>
    let x := a.headD 0
    let y := b.headD 0
    if x ≠ y then (x : Int) - (y : Int)
    else if x = 0 then 0
    else strncmp a.tail b.tail n

/-- The NUL-terminated string stored at index `i` of a byte buffer. -/
def cstr_at (l : List Nat) (i : Nat) : List Nat :=
  (l.drop i).takeWhile (fun b => b ≠ 0)

/-- Outcome of a navigator: result code, section offset, section
length. -/
structure NavOut where
  ret : Nat
  addr : Nat
  len : Nat
deriving DecidableEq, Repr

/-- Outcome of a navigator sect-table loop: error code (0 when the
loop completed or matched) and the section offset/length out
parameters. -/
structure LoopOut where
  err : Nat
  addr : Nat
  len : Nat
deriving DecidableEq, Repr

/-! ## pefile.c, lines 110-218: pe_find_strings_section -/

/-- pefile.c line 15: the expected PE header signature bytes. -/
def peSignature : List Nat := [80, 69, 0, 0]

/-- Section-table loop of pefile.c (lines 176-209): read the 8-byte
name of each of the `n` remaining entries; on a name match
(`strncmp(sect, sectionName, 8) == 0`) read the 32-bit raw-data
length (entry offset +16) and pointer (entry offset +20) and stop;
otherwise skip the remaining 32 bytes of the entry. -/
def peLoop (sect : List Nat) : Nat → Stream → Nat → Nat → LoopOut
  | 0, _, addr, len => ⟨0, addr, len⟩
  | n + 1, s, addr, len =>
    match freadN s 8 with
    | (none, s1) =>
      match fseek_cur s1 32 with
      | none => ⟨8, addr, len⟩
      | some s2 => peLoop sect n s2 addr len
    | (some name, s1) =>
      if strncmp sect name 8 = 0 then
        match advance_and_read s1 4 8 with
        | none => ⟨8, addr, len⟩
        | some (l, s2) =>
          match freadN s2 4 with
          | (none, _) => ⟨8, addr, l⟩
          | (some abs, _) => ⟨0, le_value abs, l⟩
      else
        match fseek_cur s1 32 with
        | none => ⟨8, addr, len⟩
        | some s2 => peLoop sect n s2 addr len

/-- pefile.c lines 110-218: locate the named section of a PE file.
Result codes follow the C: 4 bad signature, 5 header read failure,
6 section-table seek failure, 8 iteration failure, 9 section not
found, 0 success. -/
def pe_find_strings_section (file sect : List Nat) : NavOut :=
  let s0 : Stream := ⟨file, 0⟩
  match fseek_set s0 0x3c with
  | none => ⟨5, 0, 0⟩
  | some s1 =>
    match freadN s1 4 with
    | (none, _) => ⟨5, 0, 0⟩
    | (some hl, s2) =>
      match fseek_set s2 (le_value hl : Int) with
      | none => ⟨5, 0, 0⟩
      | some s3 =>
        match freadN s3 4 with
        | (none, _) => ⟨5, 0, 0⟩
        | (some signature, s4) =>
          if strncmp signature peSignature 4 ≠ 0 then ⟨4, 0, 0⟩
          else
            match advance_and_read s4 2 2 with
            | none => ⟨5, 0, 0⟩
            | some (sectionNums, s5) =>
              match advance_and_read s5 2 12 with
              | none => ⟨5, 0, 0⟩
              | some (optionalHeaderSize, s6) =>
                match fseek_cur s6 ((optionalHeaderSize : Int) + 2) with
                | none => ⟨6, 0, 0⟩
                | some s7 =>
                  let lo := peLoop sect sectionNums s7 0 0
                  if lo.err ≠ 0 then ⟨lo.err, lo.addr, lo.len⟩
                  else if lo.addr = 0 then ⟨9, lo.addr, lo.len⟩
                  else ⟨0, lo.addr, lo.len⟩

/-! ## ELF source, lines 227-398: elf_find_strings_section

The indeterminate `r` locals of the `read_word` calls are supplied as
the list `rs`, one entry per call in call order.  `Word` locals that
the C leaves uninitialized before their first full write are modelled
as 0. -/

/-- Section-table loop of the ELF source (lines 349-384): read the
4-byte name index of each of the `n` remaining entries (no byte swap
is applied to it, as in the C), look the name up in `shstrtab` and
compare with `strcmp`; on a match read the section offset word (entry
offset 12 for class 1, 20 otherwise) and the length word and stop;
otherwise (or on a short name-index read) seek by `entrySize - 4` to
the next entry. -/
def elfLoop (sect shstrtab : List Nat) (cls endianness entrySize : Nat)
    (rs : List Nat) : Nat → Stream → Nat → Nat → LoopOut
  | 0, _, addr, len => ⟨0, addr, len⟩
  | n + 1, s, addr, len =>
    match freadN s 4 with
    | (none, s1) =>
      match fseek_cur s1 ((entrySize : Int) - 4) with
      | none => ⟨8, addr, len⟩
      | some s2 => elfLoop sect shstrtab cls endianness entrySize rs n s2 addr len
    | (some idxBytes, s1) =>
      if sect = cstr_at shstrtab (le_value idxBytes) then
        let a1 := advance_and_read_word s1 addr cls (rs.headD 0)
          (if cls = 1 then 12 else 20)
        if a1.1 ≠ 1 then ⟨8, a1.2.1, len⟩
        else
          let addr1 := swap_data_word endianness cls a1.2.1
          let l1 := read_word a1.2.2 len cls (rs.tail.headD 0)
          if l1.1 ≠ 1 then ⟨8, addr1, l1.2.1⟩
          else ⟨0, addr1, swap_data_word endianness cls l1.2.1⟩
      else
        match fseek_cur s1 ((entrySize : Int) - 4) with
        | none => ⟨8, addr, len⟩
        | some s2 => elfLoop sect shstrtab cls endianness entrySize rs n s2 addr len

/-- ELF source lines 227-398: locate the named section of an ELF file.
The stream starts at position 4, just past the magic number, as the
caller guarantees.  `rs` supplies the indeterminate `r` of each
`read_word` call in order (two header word reads, then the two reads
of the matching entry).  Result codes follow the C: 5 header read
failure, 6 seek/names-header failure, 7 names table failure, 8
iteration failure, 9 section not found, 0 success. -/
def elf_find_strings_section (file sect rs : List Nat) : NavOut :=
  let s0 : Stream := ⟨file, 4⟩
  match freadN s0 1 with
  | (none, _) => ⟨5, 0, 0⟩
  | (some clsB, s1) =>
    let cls := le_value clsB
    match freadN s1 1 with
    | (none, _) => ⟨5, 0, 0⟩
    | (some endB, s2) =>
      let endianness := le_value endB
      let a1 := advance_and_read_word s2 0 cls (rs.headD 0)
        (if cls = 1 then 26 else 34)
      if a1.1 ≠ 1 then ⟨5, 0, 0⟩
      else
        let sectionTableAddress := swap_data_word endianness cls a1.2.1
        match advance_and_read a1.2.2 2 10 with
        | none => ⟨5, 0, 0⟩
        | some (stSizeRaw, s3) =>
          let sectionTableSize := swap_data_16 endianness stSizeRaw
          match freadN s3 2 with
          | (none, _) => ⟨5, 0, 0⟩
          | (some stLenB, s4) =>
            let sectionTableLen := swap_data_16 endianness (le_value stLenB)
            match freadN s4 2 with
            | (none, _) => ⟨5, 0, 0⟩
            | (some stNamesB, s5) =>
              let sectionTableNames := swap_data_16 endianness (le_value stNamesB)
              let sectionsAddr := word_to_long cls sectionTableAddress
              match fseek_set s5 (sectionsAddr : Int) with
              | none => ⟨6, 0, 0⟩
              | some s6 =>
                match fseek_cur s6 ((sectionTableNames * sectionTableSize : Nat) : Int) with
                | none => ⟨6, 0, 0⟩
                | some s7 =>
                  let a2 := advance_and_read_word s7 0 cls (rs.tail.headD 0)
                    (if cls = 1 then 16 else 24)
                  if a2.1 ≠ 1 then ⟨6, 0, 0⟩
                  else
                    let sectionNamesAddress := swap_data_word endianness cls a2.2.1
                    let l2 := read_word a2.2.2 0 cls (rs.tail.tail.headD 0)
                    if l2.1 ≠ 1 then ⟨6, 0, 0⟩
                    else
                      let sectionNamesLen := swap_data_word endianness cls l2.2.1
                      match fseek_set l2.2.2 (word_to_long cls sectionNamesAddress : Int) with
                      | none => ⟨6, 0, 0⟩
                      | some s8 =>
                        match freadN s8 (word_to_long cls sectionNamesLen) with
                        | (none, _) => ⟨7, 0, 0⟩
                        | (some shstrtab, s9) =>
                          match fseek_set s9 (sectionsAddr : Int) with
                          | none => ⟨6, 0, 0⟩
                          | some s10 =>
                            let lo := elfLoop sect shstrtab cls endianness
                              sectionTableSize (rs.tail.tail.tail) sectionTableLen s10 0 0
                            if lo.err ≠ 0 then ⟨lo.err, lo.addr, lo.len⟩
                            else if lo.addr = 0 then ⟨9, lo.addr, lo.len⟩
                            else ⟨0, lo.addr, lo.len⟩

/-! ## Concrete input files used by the counterexamples and witnesses -/

/-- A minimal PE image: header pointer 64, signature PE followed by
two zero bytes, one section named .rdata whose raw-data length field
is 0 and whose raw-data pointer is 77. -/
def peFileZeroLen : List Nat := [0, 0, 0, 0, 0, 0, 0, 0, 0, 0, 0, 0, 0, 0, 0, 0, 0, 0, 0, 0, 0, 0, 0, 0, 0, 0, 0, 0, 0, 0, 0, 0, 0, 0, 0, 0, 0, 0, 0, 0, 0, 0, 0, 0, 0, 0, 0, 0, 0, 0, 0, 0, 0, 0, 0, 0, 0, 0, 0, 0, 64, 0, 0, 0, 80, 69, 0, 0, 0, 0, 1, 0, 0, 0, 0, 0, 0, 0, 0, 0, 0, 0, 0, 0, 0, 0, 0, 0, 46, 114, 100, 97, 116, 97, 0, 0, 0, 0, 0, 0, 0, 0, 0, 0, 0, 0, 0, 0, 77, 0, 0, 0]

/-- The same PE image except that the fourth signature byte is 77
(not a zero byte) and the raw-data length is 16. -/
def peFileBadSig4 : List Nat := [0, 0, 0, 0, 0, 0, 0, 0, 0, 0, 0, 0, 0, 0, 0, 0, 0, 0, 0, 0, 0, 0, 0, 0, 0, 0, 0, 0, 0, 0, 0, 0, 0, 0, 0, 0, 0, 0, 0, 0, 0, 0, 0, 0, 0, 0, 0, 0, 0, 0, 0, 0, 0, 0, 0, 0, 0, 0, 0, 0, 64, 0, 0, 0, 80, 69, 0, 77, 0, 0, 1, 0, 0, 0, 0, 0, 0, 0, 0, 0, 0, 0, 0, 0, 0, 0, 0, 0, 46, 114, 100, 97, 116, 97, 0, 0, 0, 0, 0, 0, 0, 0, 0, 0, 16, 0, 0, 0, 77, 0, 0, 0]

/-- A minimal 32-bit little-endian ELF image: section header table at
offset 64 with two 40-byte entries; entry 0 is the name table section
(data at 160, length 16), entry 1 is .rodata with offset 200 and
length 50. -/
def elfFileOk : List Nat := [127, 69, 76, 70, 1, 1, 0, 0, 0, 0, 0, 0, 0, 0, 0, 0, 0, 0, 0, 0, 0, 0, 0, 0, 0, 0, 0, 0, 0, 0, 0, 0, 64, 0, 0, 0, 0, 0, 0, 0, 0, 0, 0, 0, 0, 0, 40, 0, 2, 0, 0, 0, 0, 0, 0, 0, 0, 0, 0, 0, 0, 0, 0, 0, 0, 0, 0, 0, 0, 0, 0, 0, 0, 0, 0, 0, 0, 0, 0, 0, 160, 0, 0, 0, 16, 0, 0, 0, 0, 0, 0, 0, 0, 0, 0, 0, 0, 0, 0, 0, 0, 0, 0, 0, 1, 0, 0, 0, 0, 0, 0, 0, 0, 0, 0, 0, 0, 0, 0, 0, 200, 0, 0, 0, 50, 0, 0, 0, 0, 0, 0, 0, 0, 0, 0, 0, 0, 0, 0, 0, 0, 0, 0, 0, 0, 0, 0, 0, 0, 0, 0, 0, 0, 0, 0, 0, 0, 0, 0, 0, 0, 46, 114, 111, 100, 97, 116, 97, 0, 0, 0, 0, 0, 0, 0, 0]

/-- The section name .rdata as a byte list. -/
def rdataName : List Nat := [46, 114, 100, 97, 116, 97]

/-- The section name .rodata as a byte list. -/
def rodataName : List Nat := [46, 114, 111, 100, 97, 116, 97]

/-! ## Supporting lemmas -/

theorem availLoop_le (str : List Nat) (len : Nat) :
    ∀ f i lc, availLoop str len f i lc ≤ len - 1 := by
  intro f
  induction f with
  | zero => intro i lc; simp [availLoop]
  | succ f ih =>
    intro i lc
    simp only [availLoop]
    split
    · split
      · omega
      · exact ih (i + 1) _
    · exact Nat.le_refl _

theorem available_length_le (str : List Nat) (len : Nat) :
    available_length str len ≤ len - 1 :=
  availLoop_le str len len 0 1

theorem writeBytes_nil (data : List Nat) (pos : Nat) :
    writeBytes data pos [] = data := by
  simp [writeBytes]

theorem writeBytes_length (data : List Nat) (pos : Nat) (bytes : List Nat)
    (h : pos + bytes.length ≤ data.length) :
    (writeBytes data pos bytes).length = data.length := by
  simp [writeBytes]
  omega

theorem countLoop_mul_le (str word : List Nat) (wordLen len : Nat) :
    ∀ f i c count, count * wordLen + c ≤ i →
      (countLoop str word wordLen len f i c count).1 * wordLen ≤
        (countLoop str word wordLen len f i c count).2 := by
  intro f
  induction f with
  | zero =>
    intro i c count h
    exact Nat.le_trans (Nat.le_add_right _ c) h
  | succ f ih =>
    intro i c count h
    simp only [countLoop]
    split
    · split
      · exact Nat.le_trans (Nat.le_add_right _ c) h
      · by_cases hm : str.getD i 0 = word.getD c 0
        · rw [if_pos hm]
          by_cases hw : wordLen ≤ c + 1
          · rw [if_pos hw]
            refine ih (i + 1) 0 (count + 1) ?_
            have hd : (count + 1) * wordLen = count * wordLen + wordLen := by ring
            omega
          · rw [if_neg hw]
            exact ih (i + 1) (c + 1) count (by omega)
        · rw [if_neg hm]
          by_cases hw : wordLen ≤ 0
          · rw [if_pos hw]
            refine ih (i + 1) 0 (count + 1) ?_
            have h0 : wordLen = 0 := by omega
            simp [h0]
          · rw [if_neg hw]
            exact ih (i + 1) 0 count (by omega)
    · exact Nat.le_trans (Nat.le_add_right _ c) h

theorem count_occurrences_mul_le (str word : List Nat) (wordLen len : Nat) :
    (count_occurrences str word wordLen len).1 * wordLen ≤
      (count_occurrences str word wordLen len).2 :=
  countLoop_mul_le str word wordLen len len 0 0 0 (by omega)

theorem sar_replace_run_ret (data search replace : List Nat)
    (searchLen replaceLen len offset : Nat) :
    (sar_replace_run data search replace searchLen replaceLen len offset).2 = 0 ∨
      (sar_replace_run data search replace searchLen replaceLen len offset).2 = 2 := by
  simp only [sar_replace_run]
  split
  · exact Or.inr rfl
  · exact Or.inl rfl

theorem sar_replace_run_length (data search replace : List Nat)
    (searchLen replaceLen len offset : Nat) (h : len ≤ data.length) :
    (sar_replace_run data search replace searchLen replaceLen len offset).1.length =
      data.length := by
  have havail := available_length_le (data.drop offset) (len - offset)
  simp only [sar_replace_run]
  split
  · rfl
  · rename_i hfit
    set spanned := count_occurrences (data.drop offset) search searchLen (len - offset)
      with hsp
    set newLen := spanned.2 + spanned.1 * replaceLen - spanned.1 * searchLen with hnew
    set available := available_length (data.drop offset) (len - offset) with hav
    set buffer := (string_substitute (data.drop offset) search replace searchLen replaceLen
      spanned.2 ++ List.replicate newLen 0).take newLen with hbufdef
    have hbuf : buffer.length = newLen := by
      rw [hbufdef]
      simp
    by_cases hoff : offset < len
    · have e1 : (writeBytes data offset buffer).length = data.length :=
        writeBytes_length _ _ _ (by rw [hbuf]; omega)
      have e2 : (writeBytes (writeBytes data offset buffer) (offset + newLen)
          (List.replicate (available - newLen) 0)).length =
          (writeBytes data offset buffer).length :=
        writeBytes_length _ _ _ (by rw [e1]; simp; omega)
      exact e2.trans e1
    · have hz : newLen = 0 := by omega
      have hav0 : available = 0 := by omega
      have hbuf0 : buffer = [] := List.length_eq_zero.mp (by rw [hbuf, hz])
      rw [hbuf0, hav0, hz]
      simp [writeBytes_nil]

theorem sar_match_length (search replace : List Nat) (searchLen replaceLen len : Nat)
    (data : List Nat) (i c offset state ret : Nat) (h : len ≤ data.length) :
    (sar_match search replace searchLen replaceLen len data i c offset state ret).data.length =
      data.length := by
  simp only [sar_match]
  split <;> split
  all_goals first
    | exact sar_replace_run_length data search replace searchLen replaceLen len offset h
    | rfl

theorem sar_match_cases (search replace : List Nat) (searchLen replaceLen len : Nat)
    (data : List Nat) (i c offset state ret : Nat) :
    ((sar_match search replace searchLen replaceLen len data i c offset state ret).data = data ∧
      (sar_match search replace searchLen replaceLen len data i c offset state ret).ret = ret) ∨
    ((sar_match search replace searchLen replaceLen len data i c offset state ret).ret = 0 ∨
      (sar_match search replace searchLen replaceLen len data i c offset state ret).ret = 2) := by
  simp only [sar_match]
  split <;> split
  all_goals first
    | exact Or.inr (sar_replace_run_ret data search replace searchLen replaceLen len offset)
    | exact Or.inl ⟨rfl, rfl⟩

theorem sarLoop_length (search replace : List Nat) (searchLen replaceLen len : Nat) :
    ∀ f data i c offset state ret, len ≤ data.length →
      (sarLoop search replace searchLen replaceLen len f data i c offset state ret).1.length =
        data.length := by
  intro f
  induction f with
  | zero => intro data i c offset state ret h; rfl
  | succ f ih =>
    intro data i c offset state ret h
    simp only [sarLoop]
    split
    · split
      · exact ih data (i + 1) c offset state ret h
      · split
        · split
          · exact ih data (i + 1) c offset 0 ret h
          · exact ih data (i + 1) c offset 1 ret h
        · have hm := fun x y z => sar_match_length search replace searchLen replaceLen len
            data i x y z ret h
          exact (ih _ _ _ _ _ _ (by rw [hm _ _ _]; exact h)).trans (hm _ _ _)
    · rfl

theorem sarLoop_ret_one (search replace : List Nat) (searchLen replaceLen len : Nat) :
    ∀ f data i c offset state ret,
      (sarLoop search replace searchLen replaceLen len f data i c offset state ret).2 = 1 →
        ret = 1 := by
  intro f
  induction f with
  | zero => intro data i c offset state ret h; exact h
  | succ f ih =>
    intro data i c offset state ret h
    simp only [sarLoop] at h
    split at h
    · split at h
      · exact ih _ _ _ _ _ _ h
      · split at h
        · split at h
          · exact ih _ _ _ _ _ _ h
          · exact ih _ _ _ _ _ _ h
        · have hr := ih _ _ _ _ _ _ h
          rcases sar_match_cases search replace searchLen replaceLen len data i
              (if state = 0 then c else if data.getD i 0 = 0 then 0 else c)
              (if state = 0 then i else offset)
              (if state = 0 then 2 else if data.getD i 0 = 0 then 0 else state) ret with
            ⟨hd, he⟩ | he | he
          · rw [he] at hr; exact hr
          · rw [he] at hr; exact absurd hr (by omega)
          · rw [he] at hr; exact absurd hr (by omega)
    · exact h

theorem sarLoop_unchanged (search replace : List Nat) (searchLen replaceLen len : Nat) :
    ∀ f data i c offset state,
      (sarLoop search replace searchLen replaceLen len f data i c offset state 1).2 = 1 →
        (sarLoop search replace searchLen replaceLen len f data i c offset state 1).1 = data := by
  intro f
  induction f with
  | zero => intro data i c offset state h; rfl
  | succ f ih =>
    intro data i c offset state h
    simp only [sarLoop] at h ⊢
    split
    · rename_i hil
      rw [if_pos hil] at h
      split
      · rename_i hc
        rw [if_pos hc] at h
        exact ih data (i + 1) c offset state h
      · rename_i hc
        rw [if_neg hc] at h
        split
        · rename_i hs
          rw [if_pos hs] at h
          split
          · rename_i hb
            rw [if_pos hb] at h
            exact ih data (i + 1) c offset 0 h
          · rename_i hb
            rw [if_neg hb] at h
            exact ih data (i + 1) c offset 1 h
        · rename_i hs
          rw [if_neg hs] at h
          rcases sar_match_cases search replace searchLen replaceLen len data i
              (if state = 0 then c else if data.getD i 0 = 0 then 0 else c)
              (if state = 0 then i else offset)
              (if state = 0 then 2 else if data.getD i 0 = 0 then 0 else state) 1 with
            ⟨hd, he⟩ | he | he
          · rw [hd, he] at h ⊢
            exact ih data (i + 1) _ _ _ h
          · have := sarLoop_ret_one search replace searchLen replaceLen len f _ _ _ _ _ _ h
            rw [he] at this
            exact absurd this (by omega)
          · have := sarLoop_ret_one search replace searchLen replaceLen len f _ _ _ _ _ _ h
            rw [he] at this
            exact absurd this (by omega)
    · rfl

theorem sare_replace_run_ret (data replace : List Nat) (replaceLen len offset : Nat) :
    (sare_replace_run data replace replaceLen len offset).2 = 0 ∨
      (sare_replace_run data replace replaceLen len offset).2 = 2 := by
  simp only [sare_replace_run]
  split
  · exact Or.inr rfl
  · exact Or.inl rfl

theorem sare_replace_run_length (data replace : List Nat) (replaceLen len offset : Nat)
    (h : len ≤ data.length) :
    (sare_replace_run data replace replaceLen len offset).1.length = data.length := by
  have havail := available_length_le (data.drop offset) (len - offset)
  simp only [sare_replace_run]
  split
  · rfl
  · rename_i hfit
    set available := available_length (data.drop offset) (len - offset) with hav
    have htake : (replace.take replaceLen).length ≤ replaceLen := by
      simp [List.length_take]
    by_cases hoff : offset < len
    · have e1 : (writeBytes data offset (replace.take replaceLen)).length = data.length :=
        writeBytes_length _ _ _ (by omega)
      have e2 : (writeBytes (writeBytes data offset (replace.take replaceLen))
          (offset + replaceLen) (List.replicate (available - replaceLen) 0)).length =
          (writeBytes data offset (replace.take replaceLen)).length :=
        writeBytes_length _ _ _ (by rw [e1]; simp; omega)
      exact e2.trans e1
    · have hz : replaceLen = 0 := by omega
      have hav0 : available = 0 := by omega
      rw [hz, hav0]
      simp [writeBytes_nil]

theorem sareLoop_length (search replace : List Nat) (searchLen replaceLen len : Nat) :
    ∀ f data i c offset state ret, len ≤ data.length →
      (sareLoop search replace searchLen replaceLen len f data i c offset state ret).1.length =
        data.length := by
  intro f
  induction f with
  | zero => intro data i c offset state ret h; rfl
  | succ f ih =>
    intro data i c offset state ret h
    simp only [sareLoop]
    split
    · split
      · exact ih data (i + 1) c offset state ret h
      · split
        · split
          · exact ih data (i + 1) c offset 0 ret h
          · exact ih data (i + 1) c offset 1 ret h
        · by_cases hb : data.getD i 0 = search.getD c 0 <;>
            [simp only [if_pos hb]; simp only [if_neg hb]] <;>
            split
          all_goals first
            | exact ih data (i + 1) _ _ _ ret h
            | (have hr := sare_replace_run_length data replace replaceLen len
                 (if state = 0 then i else offset) h
               exact (ih _ _ _ _ _ _ (by rw [hr]; exact h)).trans hr)
    · rfl

theorem sareLoop_ret_one (search replace : List Nat) (searchLen replaceLen len : Nat) :
    ∀ f data i c offset state ret,
      (sareLoop search replace searchLen replaceLen len f data i c offset state ret).2 = 1 →
        ret = 1 := by
  intro f
  induction f with
  | zero => intro data i c offset state ret h; exact h
  | succ f ih =>
    intro data i c offset state ret h
    simp only [sareLoop] at h
    split at h
    · split at h
      · exact ih _ _ _ _ _ _ h
      · split at h
        · split at h
          · exact ih _ _ _ _ _ _ h
          · exact ih _ _ _ _ _ _ h
        · by_cases hb : data.getD i 0 = search.getD c 0 <;>
            [simp only [if_pos hb] at h; simp only [if_neg hb] at h] <;>
            split at h
          all_goals first
            | exact ih _ _ _ _ _ _ h
            | (have hr := ih _ _ _ _ _ _ h
               rcases sare_replace_run_ret data replace replaceLen len
                   (if state = 0 then i else offset) with he | he <;>
                 (rw [he] at hr; exact absurd hr (by omega)))
    · exact h

theorem sareLoop_unchanged (search replace : List Nat) (searchLen replaceLen len : Nat) :
    ∀ f data i c offset state,
      (sareLoop search replace searchLen replaceLen len f data i c offset state 1).2 = 1 →
        (sareLoop search replace searchLen replaceLen len f data i c offset state 1).1 = data := by
  intro f
  induction f with
  | zero => intro data i c offset state h; rfl
  | succ f ih =>
    intro data i c offset state h
    simp only [sareLoop] at h ⊢
    split
    · rename_i hil
      rw [if_pos hil] at h
      split
      · rename_i hc
        rw [if_pos hc] at h
        exact ih data (i + 1) c offset state h
      · rename_i hc
        rw [if_neg hc] at h
        split
        · rename_i hs
          rw [if_pos hs] at h
          split
          · rename_i hb
            rw [if_pos hb] at h
            exact ih data (i + 1) c offset 0 h
          · rename_i hb
            rw [if_neg hb] at h
            exact ih data (i + 1) c offset 1 h
        · rename_i hs
          rw [if_neg hs] at h
          by_cases hb : data.getD i 0 = search.getD c 0 <;>
            [simp only [if_pos hb] at h ⊢; simp only [if_neg hb] at h ⊢] <;>
            split at h <;>
            rename_i ht <;>
            [skip; skip; skip; skip] <;>
            first
            | (rw [if_pos ht]
               have hr := sareLoop_ret_one search replace searchLen replaceLen len f _ _ _ _ _ _ h
               rcases sare_replace_run_ret data replace replaceLen len
                   (if state = 0 then i else offset) with he | he <;>
                 (rw [he] at hr; exact absurd hr (by omega)))
            | (rw [if_neg ht]
               exact ih data (i + 1) _ _ _ h)
    · rfl

/-! ## Claims -/

/-- Claim C1: the claim states that substring mode finds every
left-to-right non-overlapping occurrence of the search pattern in a
run.  The code refutes it: in the run "aab" (bytes 97 97 98) the
pattern "ab" occurs at index 1, the replacement "xy" would fit, yet
`search_and_replace` returns the buffer unchanged with the NotFound
code 1, because the scanner restarts matching from scratch after the
mismatch at index 1 and never re-examines that byte as the start of a
match. -/
theorem c1_substring_missed_occurrence :
    (([97, 97, 98, 0] : List Nat).drop 1).take 2 = [97, 98] ∧
      search_and_replace [97, 97, 98, 0] [97, 98] [120, 121] 4 = ([97, 97, 98, 0], 1) := by
  decide

/-- Claim C2: the claim states that a run that matched but whose
replacement did not fit forces the overall result code 2
(ReplacementDoesNotFit) even when a later run is replaced
successfully.  The code refutes it: in "ab0ab00" with search "b" and
replace "bb", the first run "ab" matches and its replacement does not
fit (its isolated replacement step yields code 2), the second run is
replaced successfully, and the overall result is 0 (Replaced): each
matching run overwrites `ret`, so the last match wins. -/
theorem c2_result_overwritten :
    search_and_replace [97, 98, 0, 97, 98, 0, 0] [98] [98, 98] 7 =
      ([97, 98, 0, 97, 98, 98, 0], 0) ∧
    sar_replace_run [97, 98, 0, 97, 98, 0, 0] [98] [98, 98] 1 2 7 0 =
      ([97, 98, 0, 97, 98, 0, 0], 2) := by
  decide

/-- Claim C3: the claim states that in exact mode every run equal to
the search string is overwritten, regardless of the adjacent runs.
The code refutes it: in "a0ab00" the run "ab" at offset 2 is
delimited by zero bytes and equals the search "ab", and the
replacement "x" fits, yet nothing is replaced and the result is
NotFound: the preceding run "a" is a proper prefix of the search, the
mismatch at its terminating zero byte moves the scanner to the
skip-to-zero state, and that state consumes the following run. -/
theorem c3_exact_run_skipped :
    (([97, 0, 97, 98, 0, 0] : List Nat).drop 2).takeWhile (fun b => b ≠ 0) = [97, 98] ∧
      search_and_replace_exact [97, 0, 97, 98, 0, 0] [97, 98] [120] 6 =
        ([97, 0, 97, 98, 0, 0], 1) := by
  decide

/-- Claim C5: for every input buffer of length L, both substitution
modes return a buffer of exactly L bytes.  `writeBytes` does not
truncate, so an out-of-buffer byte write would change the length of
the result; preservation of the length therefore also certifies that
every byte write performed falls within the L-byte buffer. -/
theorem c5_length_invariant (data search replace : List Nat) :
    (search_and_replace data search replace data.length).1.length = data.length ∧
    (search_and_replace_exact data search replace data.length).1.length = data.length :=
  ⟨sarLoop_length search replace search.length replace.length data.length data.length
      data 0 0 0 0 1 (Nat.le_refl _),
   sareLoop_length search replace search.length replace.length data.length data.length
      data 0 0 0 0 1 (Nat.le_refl _)⟩

/-- Claim C6: the claim states that replacing a non-empty search
pattern by itself leaves the buffer unchanged.  The code refutes it:
in the run "aba" with search = replace = "ab", the trailing byte "a"
is a pending partial match when the run ends; `string_substitute`
never flushes it, so the write-back copies one byte the substitution
never wrote (indeterminate in the C, 0 in the model) over the final
"a", and the buffer changes. -/
theorem c6_idempotence_broken :
    search_and_replace [97, 98, 97, 0] [97, 98] [97, 98] 4 = ([97, 98, 0, 0], 0) ∧
      ([97, 98, 0, 0] : List Nat) ≠ [97, 98, 97, 0] := by
  decide

/-- Claim C7: the claim states that the width read by `read_word`
depends only on the class argument.  The code refutes it: `read_word`
branches on an uninitialized local `r` (modelled as an explicit
argument) and never consults its class parameter, so with the class
fixed the number of bytes consumed still varies with `r`: for class 1
(32-bit) it reads 4 bytes when `r = 1` but 8 bytes when `r = 0`, and
symmetrically for class 2. -/
theorem c7_read_word_ignores_class :
    (read_word ⟨[1, 2, 3, 4, 5, 6, 7, 8], 0⟩ 0 1 1).2.2.pos = 4 ∧
    (read_word ⟨[1, 2, 3, 4, 5, 6, 7, 8], 0⟩ 0 1 0).2.2.pos = 8 ∧
    (read_word ⟨[1, 2, 3, 4, 5, 6, 7, 8], 0⟩ 0 2 0).2.2.pos = 8 ∧
    (read_word ⟨[1, 2, 3, 4, 5, 6, 7, 8], 0⟩ 0 2 1).2.2.pos = 4 := by
  decide

/-- Claim C10: whenever either substitution mode returns the NotFound
code 1, the buffer is returned byte-for-byte unchanged. -/
theorem c10_notfound_unchanged (data search replace : List Nat) (len : Nat) :
    ((search_and_replace data search replace len).2 = 1 →
      (search_and_replace data search replace len).1 = data) ∧
    ((search_and_replace_exact data search replace len).2 = 1 →
      (search_and_replace_exact data search replace len).1 = data) :=
  ⟨fun h => sarLoop_unchanged search replace search.length replace.length len len
      data 0 0 0 0 h,
   fun h => sareLoop_unchanged search replace search.length replace.length len len
      data 0 0 0 0 h⟩

/-- Witness for C10 at a concrete input: the buffer "x0" with search
"a" gives NotFound in both modes and is returned unchanged. -/
theorem c10_notfound_unchanged_witness :
    (search_and_replace [120, 0] [97] [98] 2).2 = 1 ∧
      (search_and_replace [120, 0] [97] [98] 2).1 = [120, 0] ∧
      (search_and_replace_exact [120, 0] [97] [98] 2).2 = 1 ∧
      (search_and_replace_exact [120, 0] [97] [98] 2).1 = [120, 0] :=
  ⟨by decide, (c10_notfound_unchanged [120, 0] [97] [98] 2).1 (by decide),
   by decide, (c10_notfound_unchanged [120, 0] [97] [98] 2).2 (by decide)⟩

/-- Counterexample to claim C8 as stated: the PE navigator, run on an
image whose .rdata section header carries raw-data pointer 77 and
raw-data length 0, returns success (code 0) with length 0; only the
offset is validated against the sentinel, the length is not. -/
theorem c8_counterexample :
    (pe_find_strings_section peFileZeroLen rdataName).ret = 0 ∧
      (pe_find_strings_section peFileZeroLen rdataName).len = 0 ∧
      0 < (pe_find_strings_section peFileZeroLen rdataName).addr := by
  decide

/-- Claim C8 as amended: each navigator returns success only with a
strictly positive section offset (a zero offset is resolved into the
NotFound error 9); the section length is not validated and may be
zero on success. -/
theorem c8_amended :
    (∀ file sect rs, (elf_find_strings_section file sect rs).ret = 0 →
        0 < (elf_find_strings_section file sect rs).addr) ∧
    (∀ file sect, (pe_find_strings_section file sect).ret = 0 →
        0 < (pe_find_strings_section file sect).addr) := by
  constructor
  · intro file sect rs
    simp only [elf_find_strings_section]
    repeat' split
    all_goals intro h
    all_goals try simp_all
    all_goals omega
  · intro file sect
    simp only [pe_find_strings_section]
    repeat' split
    all_goals intro h
    all_goals try simp_all
    all_goals omega

/-- Witness for C8 as amended, at concrete accepting inputs for both
navigators. -/
theorem c8_amended_witness :
    0 < (elf_find_strings_section elfFileOk rodataName [1, 1, 1, 1, 1]).addr ∧
      0 < (pe_find_strings_section peFileZeroLen rdataName).addr :=
  ⟨c8_amended.1 elfFileOk rodataName [1, 1, 1, 1, 1] (by decide),
   c8_amended.2 peFileZeroLen rdataName (by decide)⟩

/-- Counterexample to claim C9 as stated: a PE image whose four
signature bytes are 80 69 0 77 — differing from the expected
80 69 0 0 in the fourth byte — is not rejected: the navigator
proceeds past the signature check and completes with success. -/
theorem c9_counterexample :
    le_value ((peFileBadSig4.drop 60).take 4) = 64 ∧
      (peFileBadSig4.drop 64).take 4 = [80, 69, 0, 77] ∧
      ([80, 69, 0, 77] : List Nat) ≠ peSignature ∧
      (pe_find_strings_section peFileBadSig4 rdataName).ret = 0 := by
  decide

/-- Claim C9 as amended: the signature comparison
`strncmp(signature, PE_SIGNATURE, 4)` accepts a four-byte signature
exactly when its first three bytes are 80 69 0; the fourth byte is
never examined, because the NUL-terminated comparison stops at the
zero byte in the third position. -/
theorem c9_amended (s0 s1 s2 s3 : Nat) :
    strncmp [s0, s1, s2, s3] peSignature 4 = 0 ↔ s0 = 80 ∧ s1 = 69 ∧ s2 = 0 := by
  simp only [peSignature, strncmp, List.headD, List.tail_cons]
  by_cases h0 : s0 = 80 <;> by_cases h1 : s1 = 69 <;> by_cases h2 : s2 = 0 <;>
    simp [h0, h1, h2] <;> omega

/-- Witness for C9 as amended: a signature whose first three bytes
are 80 69 0 is accepted whatever its fourth byte is. -/
theorem c9_amended_witness :
    strncmp [80, 69, 0, 77] peSignature 4 = 0 ∧ strncmp [80, 69, 0, 0] peSignature 4 = 0 :=
  ⟨(c9_amended 80 69 0 77).mpr (by decide), (c9_amended 80 69 0 0).mpr (by decide)⟩

/-- Two adjacent in-bounds writes decompose the buffer into prefix,
first write, second write and suffix. -/
theorem writeBytes_adjacent (data b1 b2 : List Nat) (p : Nat)
    (h : p + b1.length + b2.length ≤ data.length) :
    writeBytes (writeBytes data p b1) (p + b1.length) b2 =
      data.take p ++ b1 ++ b2 ++ data.drop (p + b1.length + b2.length) := by
  have hp : p ≤ data.length := by omega
  have h1 : (data.take p).length = p := by simp; omega
  simp only [writeBytes, List.append_assoc, List.take_append_eq_append_take,
    List.drop_append_eq_append_drop, h1, List.take_take, List.length_take, List.length_append,
    List.drop_drop]
  have e1 : (p + b1.length) ⊓ p = p := by omega
  have e2 : p + b1.length - p = b1.length := by omega
  have e6 : p + b1.length + b2.length - p - b1.length = b2.length := by omega
  have e4 : p + b1.length + b2.length - p = b1.length + b2.length := by omega
  rw [e1, e2, e6, e4]
  have e7 : (data.take p).drop (p + b1.length + b2.length) = [] :=
    List.drop_eq_nil_of_le (by rw [h1]; omega)
  have e8 : b1.drop (b1.length + b2.length) = [] := List.drop_eq_nil_of_le (by omega)
  rw [e7, e8]
  simp

/-- Counterexample to claim C4 as stated: in the buffer "ab00" the
run "ab" has printable length 2 and available room 3; replacing "b"
by "bb" succeeds and produces the run "abb" with printable length 3 —
the printable length of a modified run can grow into the trailing
zero padding. -/
theorem c4_counterexample :
    search_and_replace [97, 98, 0, 0] [98] [98, 98] 4 = ([97, 98, 98, 0], 0) ∧
      printable_len [97, 98, 0, 0] < printable_len [97, 98, 98, 0] := by
  decide

/-- Claim C4 as amended: for every run modified by either
substitution mode, the rewritten content stays within the available
room of the run as computed by `available_length` (rather than within
the original printable length): the new content — of length `newLen`
in substring mode, `replaceLen` in exact mode — is at most the
available room, and the space from its end to the end of the
available room is zero-filled, the rest of the buffer being
untouched.  The printable length of the run may grow beyond its
original printable length into the trailing zero padding, as the
counterexample shows, but never beyond the available room. -/
theorem c4_amended (data search replace : List Nat)
    (searchLen replaceLen len offset : Nat)
    (h1 : len ≤ data.length) (h2 : offset < len)
    (hrl : replaceLen = replace.length)
    (count curLen newLen available : Nat)
    (hc : count_occurrences (data.drop offset) search searchLen (len - offset) =
      (count, curLen))
    (hn : newLen = curLen + count * replaceLen - count * searchLen)
    (ha : available = available_length (data.drop offset) (len - offset)) :
    ((sar_replace_run data search replace searchLen replaceLen len offset).2 = 0 →
      newLen ≤ available ∧
      (sar_replace_run data search replace searchLen replaceLen len offset).1 =
        data.take offset ++
          (string_substitute (data.drop offset) search replace searchLen replaceLen curLen ++
            List.replicate newLen 0).take newLen ++
          List.replicate (available - newLen) 0 ++ data.drop (offset + available)) ∧
    ((sare_replace_run data replace replaceLen len offset).2 = 0 →
      replaceLen ≤ available ∧
      (sare_replace_run data replace replaceLen len offset).1 =
        data.take offset ++ replace ++
          List.replicate (available - replaceLen) 0 ++ data.drop (offset + available)) := by
  have havail : available ≤ len - offset - 1 := by
    rw [ha]
    have := available_length_le (data.drop offset) (len - offset)
    omega
  constructor
  · intro hfit
    simp only [sar_replace_run, hc] at hfit ⊢
    rw [← ha, ← hn] at hfit ⊢
    split at hfit
    · simp at hfit
    · rename_i hg
      refine ⟨by omega, ?_⟩
      set buffer := (string_substitute (data.drop offset) search replace searchLen replaceLen
        curLen ++ List.replicate newLen 0).take newLen with hbuf
      have hbuflen : buffer.length = newLen := by rw [hbuf]; simp
      have hb := writeBytes_adjacent data buffer
        (List.replicate (available - newLen) 0) offset
        (by rw [hbuflen]; simp; omega)
      rw [hbuflen, List.length_replicate] at hb
      have e : offset + newLen + (available - newLen) = offset + available := by omega
      rw [e] at hb
      rw [if_neg hg]
      exact hb
  · intro hfit
    simp only [sare_replace_run] at hfit ⊢
    rw [← ha] at hfit ⊢
    split at hfit
    · simp at hfit
    · rename_i hg
      refine ⟨by omega, ?_⟩
      have htk : replace.take replaceLen = replace := by
        rw [hrl]
        exact List.take_length replace
      have hlen : (replace.take replaceLen).length = replaceLen := by
        rw [htk, hrl]
      have hb := writeBytes_adjacent data (replace.take replaceLen)
        (List.replicate (available - replaceLen) 0) offset
        (by rw [hlen]; simp; omega)
      rw [hlen, List.length_replicate] at hb
      have e : offset + replaceLen + (available - replaceLen) = offset + available := by omega
      rw [e] at hb
      rw [if_neg hg]
      exact hb.trans (by rw [htk])

/-- Witness for C4 as amended, at the concrete modified run of the
counterexample buffer. -/
theorem c4_amended_witness :
    3 ≤ 3 ∧
      (sar_replace_run [97, 98, 0, 0] [98] [98, 98] 1 2 4 0).1 =
        ([97, 98, 0, 0] : List Nat).take 0 ++
          (string_substitute (([97, 98, 0, 0] : List Nat).drop 0) [98] [98, 98] 1 2 2 ++
            List.replicate 3 0).take 3 ++
          List.replicate (3 - 3) 0 ++ ([97, 98, 0, 0] : List Nat).drop (0 + 3) :=
  (c4_amended [97, 98, 0, 0] [98] [98, 98] 1 2 4 0 (by decide) (by decide) (by decide)
    1 2 3 3 (by decide) (by decide) (by decide)).1 (by decide)

end StringsPatcher
